import Mathlib

/-!
Verification of the COS EU scraper's normalization / embedding-attachment /
idempotent-ingestion pipeline (`cos_scraper.py`).

The Python source is shallowly embedded: raw catalog entries become a typed
`RawListing` record (a field that `dict.get` defaults to `""` is modelled as a
`String`, an optional pass-through field as an `Option`), the embedding model
is an injected function `String → Option (List ℚ)` (the source injects
`COSEmbeddingGenerator` the same way), prices are exact rationals, and the
Supabase table is a function from the natural key `(source, product_url)` to
an optional row.  String manipulation (`lower`, `strip`, `replace`, `split`,
`in`, `title`, `float`) is modelled by structurally recursive functions on
character lists so that everything evaluates inside the kernel.
-/

/-! ### Character-list models of the Python string primitives -/

/-- Model of Python `s.startswith(pat)` on character lists. -/
def startsWithChars : List Char → List Char → Bool
  | [], _ => true
  | _ :: _, [] => false
  | p :: ps, c :: cs => p == c && startsWithChars ps cs

/-- Model of Python `pat in s` (substring containment) on character lists. -/
def containsChars (pat : List Char) : List Char → Bool
  | [] => startsWithChars pat []
  | c :: cs => startsWithChars pat (c :: cs) || containsChars pat cs

/-- Model of Python `pat in s` for strings: does `pat` occur in `s`? -/
def strContains (pat s : String) : Bool :=
  containsChars pat.data s.data

/-- Model of Python `s.replace(pat, rep)` for a one-character pattern (the
source only ever replaces the single characters `€`, `,` and `-`). -/
def replaceChar (pat : Char) (rep : List Char) : List Char → List Char
  | [] => []
  | c :: cs => (if c == pat then rep else [c]) ++ replaceChar pat rep cs

/-- String-level wrapper for `replaceChar`. -/
def strReplaceChar (s : String) (pat : Char) (rep : String) : String :=
  ⟨replaceChar pat rep.data s.data⟩

/-- Whitespace characters recognised by Python `str.strip()` (the ASCII ones;
the pipeline's inputs contain no exotic Unicode spacing). -/
def isPySpace (c : Char) : Bool :=
  c == ' ' || c == '\t' || c == '\n' || c == '\r' || c == '\x0b' || c == '\x0c'

/-- Model of Python `s.strip()` on character lists. -/
def stripChars (cs : List Char) : List Char :=
  ((cs.dropWhile isPySpace).reverse.dropWhile isPySpace).reverse

/-- Model of Python `s.strip()` for strings. -/
def pyStrip (s : String) : String :=
  ⟨stripChars s.data⟩

/-- Model of Python `s.lower()` (ASCII case folding, which covers every
category label and keyword the source compares). -/
def pyLower (s : String) : String :=
  ⟨s.data.map Char.toLower⟩

/-- Model of Python `s.split(sep)` for a one-character separator. -/
def splitOnChar (sep : Char) : List Char → List (List Char)
  | [] => [[]]
  | c :: cs =>
    match splitOnChar sep cs with
    | [] => [[]]
    | g :: gs => if c == sep then [] :: g :: gs else (c :: g) :: gs

/-- Model of Python `s.title()`: an alphabetic character is uppercased when
the previous character is not alphabetic and lowercased otherwise.  The
boolean argument records whether the previous character was alphabetic. -/
def titleChars : Bool → List Char → List Char
  | _, [] => []
  | prevAlpha, c :: cs =>
    (if c.isAlpha then (if prevAlpha then c.toLower else c.toUpper) else c)
      :: titleChars c.isAlpha cs

/-- Model of Python `s.title()` for strings. -/
def pyTitle (s : String) : String :=
  ⟨titleChars false s.data⟩

/-! ### Model of Python `float()` on decimal numerals -/

/-- Numeric value of a digit list, most significant first. -/
def digitsToNat (cs : List Char) : Nat :=
  cs.foldl (fun n c => 10 * n + (c.toNat - 48)) 0

/-- Unsigned part of `float()`: digits with at most one decimal point and at
least one digit somewhere. -/
def parseUnsignedDec (cs : List Char) : Option ℚ :=
  match splitOnChar '.' cs with
  | [ip] =>
    if ip ≠ [] && ip.all Char.isDigit then some (digitsToNat ip : ℚ) else none
  | [ip, fp] =>
    if (ip ≠ [] || fp ≠ []) && ip.all Char.isDigit && fp.all Char.isDigit then
      some ((digitsToNat ip : ℚ) + (digitsToNat fp : ℚ) / (10 : ℚ) ^ fp.length)
    else none
  | _ => none

/-- Model of Python `float(s)` on the plain decimal numerals this pipeline
can feed it (optional sign, digits, at most one decimal point); exponent,
`inf`/`nan` and digit-group-underscore forms never arise from price strings
and are not modelled.  `none` models the `ValueError` branch. -/
def pyFloat (s : String) : Option ℚ :=
  match s.data with
  | '+' :: rest => parseUnsignedDec rest
  | '-' :: rest => (parseUnsignedDec rest).map Neg.neg
  | rest => parseUnsignedDec rest

/-! ### Data model (`ProductData` dataclass and the raw COS JSON entry) -/

/-- A raw COS catalog entry (`product_json` in the source).  Fields read with
`product_json.get(k, "")` are `String`s with `""` standing for "absent";
`primaryImageSrc` is `product_json.get("primaryImage", {}).get("src", "")`;
`images` is the list of `img.get("src", "")` values of the images array;
pass-through metadata fields keep their loose optionality. -/
structure RawListing where
  id : String
  uri : String
  primaryImageSrc : String
  images : List String
  name : String
  categories : List String
  price : String
  categoryUri : String
  centraProductId : Option String := none
  sku : Option String := none
  product_sku : Option String := none
  variantsCount : Option Int := none
  isNew : Bool := false
  isOnSale : Bool := false
  sustainabilityComposition : List String := []
  deriving Repr, DecidableEq

/-- The metadata blob assembled by `process_product`.  The source serializes
it with `json.dumps`; the serialization is abstracted to the structured value
itself (it is opaque to the rest of the pipeline). -/
structure ProductMetadata where
  centra_product_id : Option String
  sku : Option String
  product_sku : Option String
  variants_count : Option Int
  is_new : Bool
  is_on_sale : Bool
  categories : List String
  sustainability_composition : List String
  all_images : List String
  deriving Repr, DecidableEq

/-- The `ProductData` dataclass, with the same field defaults. -/
structure ProductData where
  id : String
  product_url : String
  image_url : String
  title : String
  gender : String
  price : ℚ
  currency : String
  source : String := "scraper"
  affiliate_url : Option String := none
  brand : String := "COS"
  description : Option String := none
  category : Option String := none
  metadata : Option ProductMetadata := none
  size : Option String := none
  second_hand : Bool := false
  embedding : Option (List ℚ) := none
  country : String := "EU"
  compressed_image_url : Option String := none
  tags : Option (List String) := none
  deriving Repr, DecidableEq

/-! ### Record normalizer (`COSDataProcessor.process_product`) -/

/-- Image resolution step of `process_product`: prefer the primary image's
`src`, else the first entry of the images array, else `""` (invalid). -/
def resolvedImageUrl (raw : RawListing) : String :=
  if raw.primaryImageSrc = "" then
    match raw.images with
    | [] => ""
    | img :: _ => img
  else raw.primaryImageSrc

/-- Price step of `process_product`:
`price_str = price.replace("€", "").replace(",", ".").strip()` followed by
`float(price_str)`, defaulting to `0.0` on a parse failure. -/
def priceOf (price : String) : ℚ :=
  (pyFloat (pyStrip (strReplaceChar (strReplaceChar price '€' "") ',' "."))).getD 0

/-- Tag step of `process_product` for one category label: the
`if/elif` keyword chain over the lowercased label. -/
def tagOf (cat : String) : Option String :=
  if strContains "cashmere" (pyLower cat) then some "cashmere"
  else if strContains "wool" (pyLower cat) then some "wool"
  else if strContains "cotton" (pyLower cat) then some "cotton"
  else none

/-- Category step of `process_product`: when `categoryUri` contains `/`,
take its last `/`-segment, replace `-` by spaces and title-case it. -/
def categoryOf (categoryUri : String) : Option String :=
  if strContains "/" categoryUri then
    some (pyTitle (strReplaceChar ⟨(splitOnChar '/' categoryUri.data).getLastD []⟩ '-' " "))
  else none

/-- Gender step of `process_product`: default `"WOMAN"`, switched to `"MAN"`
when `any("men" in cat.lower() for cat in categories)`. -/
def genderOf (categories : List String) : String :=
  if categories.any (fun cat => strContains "men" (pyLower cat)) then "MAN"
  else "WOMAN"

/-- Tags step of `process_product`: the keyword chain applied to each
category label in order, with `tags if tags else None` at the end. -/
def tagsOf (categories : List String) : Option (List String) :=
  if categories.filterMap tagOf = [] then none else some (categories.filterMap tagOf)

/-- Product-URL step of `process_product`:
`f"https://www.cos.com/en-eu/{uri}" if uri else ""`. -/
def productUrlOf (uri : String) : String :=
  if uri ≠ "" then "https://www.cos.com/en-eu/" ++ uri else ""

/-- Metadata step of `process_product`: the pass-through dict, with
`all_images` the non-empty image sources. -/
def metadataOf (raw : RawListing) : ProductMetadata :=
  { centra_product_id := raw.centraProductId
    sku := raw.sku
    product_sku := raw.product_sku
    variants_count := raw.variantsCount
    is_new := raw.isNew
    is_on_sale := raw.isOnSale
    categories := raw.categories
    sustainability_composition := raw.sustainabilityComposition
    all_images := raw.images.filter (fun src => src ≠ "") }

/-- `COSDataProcessor.process_product`: normalize one raw entry into a
`ProductData`, or `none` for the three invalid-record early returns (missing
id, no image, empty title).  The embedding model is the injected `embed`
capability; `embed url = none` models `generate_embedding` reporting failure. -/
def process_product (embed : String → Option (List ℚ)) (raw : RawListing) :
    Option ProductData :=
  if raw.id = "" then none
  else if resolvedImageUrl raw = "" then none
  else if pyStrip raw.name = "" then none
  else
    some
      { id := "cos_" ++ raw.id
        product_url := productUrlOf raw.uri
        image_url := resolvedImageUrl raw
        title := pyStrip raw.name
        gender := genderOf raw.categories
        price := priceOf raw.price
        currency := "EUR"
        category := categoryOf raw.categoryUri
        metadata := some (metadataOf raw)
        embedding := embed (resolvedImageUrl raw)
        tags := tagsOf raw.categories }

/-- `COSDataProcessor.process_json_response`: process the `items` array,
keeping the records that normalize successfully, in order. -/
def process_json_response (embed : String → Option (List ℚ))
    (items : List RawListing) : List ProductData :=
  items.filterMap (process_product embed)

/-! ### Ingestion sink (`SupabaseImporter.import_products`) -/

/-- The `product_dict` row written by `import_products`, field for field,
with `created_at` the ingestion-time timestamp. -/
structure Row where
  id : String
  source : String
  product_url : String
  affiliate_url : Option String
  image_url : String
  brand : String
  title : String
  description : Option String
  category : Option String
  gender : String
  price : ℚ
  currency : String
  metadata : Option ProductMetadata
  size : Option String
  second_hand : Bool
  embedding : Option (List ℚ)
  country : String
  compressed_image_url : Option String
  tags : Option (List String)
  created_at : String
  deriving Repr, DecidableEq

/-- The `product_dict` built by `import_products` from a `ProductData`,
with `now` standing for `datetime.utcnow().isoformat()`. -/
def toRow (p : ProductData) (now : String) : Row :=
  { id := p.id
    source := p.source
    product_url := p.product_url
    affiliate_url := p.affiliate_url
    image_url := p.image_url
    brand := p.brand
    title := p.title
    description := p.description
    category := p.category
    gender := p.gender
    price := p.price
    currency := p.currency
    metadata := p.metadata
    size := p.size
    second_hand := p.second_hand
    embedding := p.embedding
    country := p.country
    compressed_image_url := p.compressed_image_url
    tags := p.tags
    created_at := now }

/-- Modelled from the spec: the persistent `products` table, which `upsert`
keys by the natural key `(source, product_url)` — at most one row per key,
so the store is a function from keys to an optional row.  The table itself
lives behind the Supabase client and is not part of this repository. -/
def Store : Type :=
  String × String → Option Row

/-- Modelled from the spec: one `upsert(product_dict, on_conflict="source,product_url")`
call — write-or-replace the row whose key matches, leaving every other key
untouched (last-write-wins, no merging of old values). -/
def upsertRow (s : Store) (row : Row) : Store :=
  fun k => if k = (row.source, row.product_url) then some row else s k

/-- Outcome of one `upsert(...).execute()` call against the external store:
it returns data (successful write), returns empty data (counted as an error
by the source; no row recorded), or raises (caught by the source). -/
inductive UpsertOutcome
  | ok
  | okNoData
  | exn
  deriving Repr, DecidableEq

/-- The `results` tally of `import_products`. -/
structure ImportResults where
  inserted : Nat
  updated : Nat
  errors : Nat
  deriving Repr, DecidableEq

/-- `SupabaseImporter.import_products`: per record, build `product_dict` and
upsert it; `response.data` non-empty increments `inserted`, empty data or a
raised exception increments `errors` and the loop continues with the next
record.  `behave` is the external store's response per record, `now` the
timestamp, `s` the store state before the batch. -/
def import_products (behave : ProductData → UpsertOutcome) (now : String)
    (s : Store) : List ProductData → Store × ImportResults
  | [] => (s, ⟨0, 0, 0⟩)
  | p :: ps =>
    match behave p with
    | .ok =>
      let rest := import_products behave now (upsertRow s (toRow p now)) ps
      (rest.1, { rest.2 with inserted := rest.2.inserted + 1 })
    | .okNoData =>
      let rest := import_products behave now s ps
      (rest.1, { rest.2 with errors := rest.2.errors + 1 })
    | .exn =>
      let rest := import_products behave now s ps
      (rest.1, { rest.2 with errors := rest.2.errors + 1 })

/-! ### Orchestrator (`COSScraper.scrape_from_json_file` / `scrape_from_json_url`) -/

/-- Python slice `xs[:n]` for an `int` bound: first `n` elements when
`n ≥ 0`, all but the last `|n|` elements when `n < 0`. -/
def pySliceTo (n : Int) (xs : List α) : List α :=
  if 0 ≤ n then xs.take n.toNat else xs.take (xs.length - n.natAbs)

/-- The `if limit: products = products[:limit]` step shared verbatim by
`scrape_from_json_file` and `scrape_from_json_url`; `none` and `0` are falsy
in Python, so neither truncates. -/
def truncateByLimit : Option Int → List ProductData → List ProductData
  | none, ps => ps
  | some n, ps => if n = 0 then ps else pySliceTo n ps

/-- The list of products handed to the ingestion sink by
`scrape_from_json_file` / `scrape_from_json_url`: normalize the fetched
`items`, then apply the limit truncation. -/
def productsForSink (embed : String → Option (List ℚ)) (items : List RawListing)
    (limit : Option Int) : List ProductData :=
  truncateByLimit limit (process_json_response embed items)

/-- `COSScraper.scrape_from_json_file` / `scrape_from_json_url` after the
fetch step (the fetch layer is an excluded collaborator that yields `items`):
process, truncate, import. -/
def scrape_from_json (embed : String → Option (List ℚ))
    (behave : ProductData → UpsertOutcome) (now : String) (s : Store)
    (items : List RawListing) (limit : Option Int) : Store × ImportResults :=
  import_products behave now s (productsForSink embed items limit)

/-! ### Derived notions used by the statements -/

/-- The natural key of a product, as `import_products` sends it to the store. -/
def rowKey (p : ProductData) : String × String :=
  (p.source, p.product_url)

/-- Pure store effect of a batch whose writes all succeed: upsert each row
in order. -/
def upsertAll (now : String) (s : Store) : List ProductData → Store
  | [] => s
  | p :: ps => upsertAll now (upsertRow s (toRow p now)) ps

/-- The last product of a batch carrying a given natural key, if any
(the upsert winner for that key). -/
def lastWithKey (k : String × String) : List ProductData → Option ProductData
  | [] => none
  | p :: ps =>
    match lastWithKey k ps with
    | some q => some q
    | none => if rowKey p = k then some p else none

/-- Modelled from the spec: a whitespace-separated category-label token
"indicating men's" — once case-folded and stripped of punctuation the token
reads `men` or `mens` (so the possessive `Men's` counts but `Women's` does
not).  Used only to compare the spec's gender rule with the code's. -/
def mensToken (w : List Char) : Bool :=
  w.filter Char.isAlpha = ['m', 'e', 'n'] || w.filter Char.isAlpha = ['m', 'e', 'n', 's']

/-- Modelled from the spec: "scan the listing's category-label list
case-insensitively for a token indicating men's". -/
def specHasMensToken (categories : List String) : Bool :=
  categories.any (fun cat => ((splitOnChar ' ' (pyLower cat).data).any mensToken))

/-! ### Concrete inputs used by witnesses and counterexamples -/

/-- The apostrophe character, written via its code point. -/
def apostrophe : Char := Char.ofNat 39

/-- The spec's example label `Men's Knitwear`. -/
def mensKnitwear : String := "Men" ++ String.mk [apostrophe] ++ "s Knitwear"

/-- A women's category label; it contains the substring `men`. -/
def womensDresses : String := "Women" ++ String.mk [apostrophe] ++ "s Dresses"

/-- An embedding provider that always reports failure. -/
def embedNone : String → Option (List ℚ) := fun _ => none

/-- A raw listing that normalizes successfully. -/
def sampleRaw : RawListing :=
  { id := "123", uri := "shirt-dress", primaryImageSrc := "https://img.cos.com/1.jpg",
    images := [], name := " Shirt Dress ", categories := ["Dresses"],
    price := "€129,00", categoryUri := "women/shirt-dresses" }

/-- A valid raw listing categorized `Men's Knitwear`. -/
def mensRaw : RawListing :=
  { sampleRaw with id := "m1", categories := [mensKnitwear] }

/-- A valid raw listing categorized `Women's Dresses`. -/
def womensRaw : RawListing :=
  { sampleRaw with id := "w1", categories := [womensDresses] }

/-- A valid raw listing with two cashmere category labels. -/
def cashmereRaw : RawListing :=
  { sampleRaw with id := "c1", categories := ["Cashmere Sweater", "Cashmere Scarf"] }

/-- A concrete product, also used as the `Option.getD` fallback. -/
def sampleProduct : ProductData :=
  { id := "cos_123", product_url := "https://www.cos.com/en-eu/shirt-dress",
    image_url := "https://img.cos.com/1.jpg", title := "Shirt Dress",
    gender := "WOMAN", price := 129, currency := "EUR" }

/-- The empty store. -/
def emptyStore : Store := fun _ => none

/-! ### Helper lemmas -/

/-- Every field of a successfully normalized product, in terms of the
normalization steps. -/
theorem pp_fields (embed : String → Option (List ℚ)) (raw : RawListing)
    (p : ProductData) (h : process_product embed raw = some p) :
    p.id = "cos_" ++ raw.id ∧ p.source = "scraper" ∧
    p.gender = genderOf raw.categories ∧
    p.price = priceOf raw.price ∧
    p.embedding = embed (resolvedImageUrl raw) ∧
    p.tags = tagsOf raw.categories ∧
    p.image_url = resolvedImageUrl raw ∧
    p.title = pyStrip raw.name := by
  simp only [process_product] at h
  split_ifs at h
  cases h
  exact ⟨rfl, rfl, rfl, rfl, rfl, rfl, rfl, rfl⟩

/-- The price string never decides whether a record normalizes: an
unparseable price defaults to `0.0` instead of dropping the record. -/
theorem pp_price_irrelevant (embed : String → Option (List ℚ)) (raw : RawListing)
    (s : String) :
    (process_product embed { raw with price := s }).isSome
      = (process_product embed raw).isSome := by
  simp only [process_product]
  have h1 : ({ raw with price := s } : RawListing).id = raw.id := rfl
  have h2 : resolvedImageUrl { raw with price := s } = resolvedImageUrl raw := rfl
  have h3 : pyStrip ({ raw with price := s } : RawListing).name = pyStrip raw.name := rfl
  rw [h1, h2, h3]
  split_ifs <;> rfl

theorem upsertAll_apply (now : String) (s : Store) (ps : List ProductData)
    (k : String × String) :
    upsertAll now s ps k
      = match lastWithKey k ps with
        | some p => some (toRow p now)
        | none => s k := by
  induction ps generalizing s with
  | nil => rfl
  | cons p ps ih =>
    simp only [upsertAll, lastWithKey, ih]
    cases lastWithKey k ps with
    | some q => rfl
    | none =>
      simp only [upsertRow]
      have hkey : ((toRow p now).source, (toRow p now).product_url) = rowKey p := rfl
      rw [hkey]
      by_cases hk : rowKey p = k
      · rw [if_pos hk, if_pos hk.symm]
      · rw [if_neg hk, if_neg (fun he => hk he.symm)]

/-- When every write in the batch succeeds, the store after
`import_products` is the in-order upsert of every row. -/
theorem import_products_store_ok (behave : ProductData → UpsertOutcome)
    (now : String) (s : Store) (ps : List ProductData)
    (h : ∀ p ∈ ps, behave p = .ok) :
    (import_products behave now s ps).1 = upsertAll now s ps := by
  induction ps generalizing s with
  | nil => rfl
  | cons p ps ih =>
    have hp : behave p = .ok := h p (List.mem_cons_self p ps)
    simp only [import_products, hp, upsertAll]
    exact ih (upsertRow s (toRow p now)) (fun q hq => h q (List.mem_cons_of_mem p hq))

/-- Counter law of `import_products`: every record lands in exactly one of
`inserted` / `errors`, and `updated` is never touched. -/
theorem import_products_counts (behave : ProductData → UpsertOutcome)
    (now : String) (s : Store) (ps : List ProductData) :
    (import_products behave now s ps).2.inserted
        + (import_products behave now s ps).2.errors = ps.length
    ∧ (import_products behave now s ps).2.updated = 0 := by
  induction ps generalizing s with
  | nil => exact ⟨rfl, rfl⟩
  | cons p ps ih =>
    cases hb : behave p <;> simp only [import_products, hb, List.length_cons]
    · exact ⟨by have h := (ih (upsertRow s (toRow p now))).1; omega,
             (ih (upsertRow s (toRow p now))).2⟩
    · exact ⟨by have h := (ih s).1; omega, (ih s).2⟩
    · exact ⟨by have h := (ih s).1; omega, (ih s).2⟩

/-! ### Claims -/

/-- C1: upserting the same batch of products twice, keyed on the natural key
`(source, product_url)`, leaves the store identical to a single upsert of
that batch: when every write succeeds, the store after the second run equals
the store after one run, and each key holds exactly the last batch product
with that key (all fields overwritten last-write-wins, timestamped by the
second run), with other keys untouched. -/
theorem upsert_idempotent (behave : ProductData → UpsertOutcome)
    (t1 t2 : String) (s : Store) (ps : List ProductData)
    (h : ∀ p ∈ ps, behave p = .ok) :
    (import_products behave t2 (import_products behave t1 s ps).1 ps).1
      = (import_products behave t2 s ps).1
    ∧ ∀ k, (import_products behave t2 s ps).1 k
        = match lastWithKey k ps with
          | some p => some (toRow p t2)
          | none => s k := by
  have h1 := import_products_store_ok behave t1 s ps h
  have h2 := import_products_store_ok behave t2 s ps h
  have h3 := import_products_store_ok behave t2 (upsertAll t1 s ps) ps h
  refine ⟨?_, ?_⟩
  · rw [h1, h3, h2]
    funext k
    simp only [upsertAll_apply]
    cases hl : lastWithKey k ps <;> simp only [hl]
  · intro k
    rw [h2, upsertAll_apply]

/-- Witness for C1 at a one-product batch against the empty store. -/
theorem upsert_idempotent_witness :
    (import_products (fun _ => UpsertOutcome.ok) "t2"
        (import_products (fun _ => UpsertOutcome.ok) "t1" emptyStore [sampleProduct]).1
        [sampleProduct]).1
      = (import_products (fun _ => UpsertOutcome.ok) "t2" emptyStore [sampleProduct]).1 :=
  (upsert_idempotent (fun _ => UpsertOutcome.ok) "t1" "t2" emptyStore [sampleProduct]
    (fun _ _ => rfl)).1

/-- C2: a listing that normalizes successfully while the embedding provider
reports failure for its resolved image URL still yields a product — with
`embedding` absent — and the sink still counts that product's successful
write under the success counter. -/
theorem embedding_degradation (embed : String → Option (List ℚ))
    (raw : RawListing) (now : String) (s : Store)
    (hid : raw.id ≠ "") (himg : resolvedImageUrl raw ≠ "")
    (htitle : pyStrip raw.name ≠ "")
    (hfail : embed (resolvedImageUrl raw) = none) :
    (process_product embed raw).map ProductData.embedding = some none
    ∧ ∀ p, process_product embed raw = some p →
        (import_products (fun _ => UpsertOutcome.ok) now s [p]).2.inserted = 1 := by
  refine ⟨?_, fun p _ => rfl⟩
  unfold process_product
  rw [if_neg hid, if_neg himg, if_neg htitle, Option.map_some', hfail]

/-- Witness for C2 at a concrete listing with an always-failing provider. -/
theorem embedding_degradation_witness :
    (process_product embedNone sampleRaw).map ProductData.embedding = some none
    ∧ (import_products (fun _ => UpsertOutcome.ok) "now" emptyStore
        [(process_product embedNone sampleRaw).getD sampleProduct]).2.inserted = 1 :=
  ⟨(embedding_degradation embedNone sampleRaw "now" emptyStore
      (by decide) (by decide) (by decide) rfl).1,
   (embedding_degradation embedNone sampleRaw "now" emptyStore
      (by decide) (by decide) (by decide) rfl).2
     ((process_product embedNone sampleRaw).getD sampleProduct) rfl⟩

/-- C8: records are committed independently — over the whole batch the
success and failure counters sum to the number of input products (and the
never-touched `updated` counter stays `0`), and a record whose write raises
is counted one failure while the remaining records produce exactly the
store and tallies they would produce on their own. -/
theorem per_record_isolation (behave : ProductData → UpsertOutcome)
    (now : String) (s : Store) (p : ProductData) (ps : List ProductData)
    (hexn : behave p = .exn) :
    ((import_products behave now s (p :: ps)).2.inserted
        + (import_products behave now s (p :: ps)).2.errors = (p :: ps).length)
    ∧ (import_products behave now s (p :: ps)).2.updated = 0
    ∧ import_products behave now s (p :: ps)
        = ((import_products behave now s ps).1,
           { inserted := (import_products behave now s ps).2.inserted
             updated := (import_products behave now s ps).2.updated
             errors := (import_products behave now s ps).2.errors + 1 }) := by
  refine ⟨(import_products_counts behave now s (p :: ps)).1,
          (import_products_counts behave now s (p :: ps)).2, ?_⟩
  simp only [import_products, hexn]

/-- Witness for C8: a one-record batch whose write raises. -/
theorem per_record_isolation_witness :
    ((import_products (fun _ => UpsertOutcome.exn) "now" emptyStore [sampleProduct]).2.inserted
        + (import_products (fun _ => UpsertOutcome.exn) "now" emptyStore [sampleProduct]).2.errors
      = ([sampleProduct] : List ProductData).length)
    ∧ (import_products (fun _ => UpsertOutcome.exn) "now" emptyStore [sampleProduct]).2.updated = 0
    ∧ import_products (fun _ => UpsertOutcome.exn) "now" emptyStore [sampleProduct]
        = ((import_products (fun _ => UpsertOutcome.exn) "now" emptyStore []).1,
           { inserted := (import_products (fun _ => UpsertOutcome.exn) "now" emptyStore []).2.inserted
             updated := (import_products (fun _ => UpsertOutcome.exn) "now" emptyStore []).2.updated
             errors := (import_products (fun _ => UpsertOutcome.exn) "now" emptyStore []).2.errors + 1 }) :=
  per_record_isolation (fun _ => UpsertOutcome.exn) "now" emptyStore sampleProduct [] rfl

/-- Helper: the only tags a category label can produce are the three known
fabric keywords. -/
theorem tagOf_cases (cat t : String) (h : tagOf cat = some t) :
    t = "cashmere" ∨ t = "wool" ∨ t = "cotton" := by
  unfold tagOf at h
  split_ifs at h
  · cases h; exact Or.inl rfl
  · cases h; exact Or.inr (Or.inl rfl)
  · cases h; exact Or.inr (Or.inr rfl)

/-- C3 counterexample: on a listing with external id `123` the produced id
is `cos_123` while the source field is `scraper`, so the id is not
`\x7bsource\x7d_\x7bexternalId\x7d`. -/
theorem id_source_counterexample :
    ¬ ((process_product embedNone sampleRaw).map ProductData.id
        = (process_product embedNone sampleRaw).map
            (fun p => p.source ++ "_" ++ sampleRaw.id)) := by
  decide

/-- C3 amended: the id of every successfully normalized product is the
literal prefix `cos` followed by an underscore and the listing's external
id, while the product's source field is the dataclass default `scraper`. -/
theorem product_id_format (embed : String → Option (List ℚ)) (raw : RawListing)
    (p : ProductData) (h : process_product embed raw = some p) :
    p.id = "cos_" ++ raw.id ∧ p.source = "scraper" :=
  ⟨(pp_fields embed raw p h).1, (pp_fields embed raw p h).2.1⟩

/-- Witness for the amended C3 at a concrete listing. -/
theorem product_id_format_witness :
    ((process_product embedNone sampleRaw).getD sampleProduct).id = "cos_" ++ sampleRaw.id
    ∧ ((process_product embedNone sampleRaw).getD sampleProduct).source = "scraper" :=
  product_id_format embedNone sampleRaw
    ((process_product embedNone sampleRaw).getD sampleProduct) rfl

/-- C4: price normalization strips the euro sign, turns the comma into a
decimal point and parses the result, so `€129,00` parses to `129`,
`199.50` to `199.5`, and empty or unparseable price text defaults to `0`;
moreover the parsed price is exactly `priceOf` of the raw price text, and
the price text never decides whether a record is kept. -/
theorem price_parsing :
    priceOf "€129,00" = 129
    ∧ priceOf "199.50" = (1995 : ℚ) / 10
    ∧ priceOf "" = 0
    ∧ priceOf "not a number" = 0
    ∧ (∀ embed raw p, process_product embed raw = some p → p.price = priceOf raw.price)
    ∧ (∀ embed raw s, (process_product embed { raw with price := s }).isSome
        = (process_product embed raw).isSome) := by
  refine ⟨?_, ?_, rfl, rfl, fun embed raw p h => (pp_fields embed raw p h).2.2.2.1,
    fun embed raw s => pp_price_irrelevant embed raw s⟩
  · have h : priceOf "€129,00" = ((129 : ℕ) : ℚ) + ((0 : ℕ) : ℚ) / 10 ^ 2 := rfl
    rw [h]; norm_num
  · have h : priceOf "199.50" = ((199 : ℕ) : ℚ) + ((50 : ℕ) : ℚ) / 10 ^ 2 := rfl
    rw [h]; norm_num

/-- Witness for C4's quantified parts at a concrete listing. -/
theorem price_parsing_witness :
    ((process_product embedNone sampleRaw).getD sampleProduct).price = priceOf sampleRaw.price
    ∧ (process_product embedNone { sampleRaw with price := "not a number" }).isSome
        = (process_product embedNone sampleRaw).isSome :=
  ⟨price_parsing.2.2.2.2.1 embedNone sampleRaw
      ((process_product embedNone sampleRaw).getD sampleProduct) rfl,
   price_parsing.2.2.2.2.2 embedNone sampleRaw "not a number"⟩

/-- C5 counterexample: the claim "gender is MAN exactly when the category
list has a token indicating men's" fails on the label `Women's Dresses`,
which carries no men's token yet makes the code emit MAN (its substring
`men` matches). -/
theorem gender_token_counterexample :
    ¬ (((process_product embedNone womensRaw).map ProductData.gender = some "MAN")
        ↔ specHasMensToken womensRaw.categories = true) := by
  intro hiff
  exact absurd (hiff.mp rfl) (by decide)

/-- C5 amended: gender is MAN exactly when some category label contains the
substring `men` case-insensitively — which also matches `women` — and WOMAN
otherwise; the spec's two examples (`Men's Knitwear` gives MAN, a bare
`Dresses` gives WOMAN) hold. -/
theorem gender_heuristic :
    (∀ embed raw p, process_product embed raw = some p →
        (p.gender = "MAN"
          ↔ raw.categories.any (fun cat => strContains "men" (pyLower cat)) = true))
    ∧ (process_product embedNone mensRaw).map ProductData.gender = some "MAN"
    ∧ (process_product embedNone sampleRaw).map ProductData.gender = some "WOMAN" := by
  refine ⟨?_, rfl, rfl⟩
  intro embed raw p h
  rw [(pp_fields embed raw p h).2.2.1]
  unfold genderOf
  by_cases hc : raw.categories.any (fun cat => strContains "men" (pyLower cat)) = true
  · rw [if_pos hc]
    exact ⟨fun _ => hc, fun _ => rfl⟩
  · rw [if_neg hc]
    exact ⟨fun hw => absurd hw (by decide), fun hany => absurd hany hc⟩

/-- Witness for the amended C5 at the `Men's Knitwear` listing. -/
theorem gender_heuristic_witness :
    ((process_product embedNone mensRaw).getD sampleProduct).gender = "MAN"
      ↔ mensRaw.categories.any (fun cat => strContains "men" (pyLower cat)) = true :=
  gender_heuristic.1 embedNone mensRaw
    ((process_product embedNone mensRaw).getD sampleProduct) rfl

/-- C6 counterexample: two cashmere labels yield the tag list
`[cashmere, cashmere]` — the keyword appears twice, not at most once. -/
theorem tags_duplicate_counterexample :
    (process_product embedNone cashmereRaw).map ProductData.tags
      = some (some ["cashmere", "cashmere"])
    ∧ List.count "cashmere" ["cashmere", "cashmere"] = 2 := by
  exact ⟨rfl, by decide⟩

/-- C6 amended: the tags of a normalized product list, per category label in
order, the first fabric keyword (cashmere, wool, cotton) found in that label
— so a keyword may repeat across labels — the list is absent (`None`) exactly
when no label mentions a keyword, every tag is one of the three keywords,
`Cashmere Sweater` yields `cashmere`, and a keyword-free category list
yields absent tags. -/
theorem tag_derivation :
    (∀ embed raw p, process_product embed raw = some p → p.tags = tagsOf raw.categories)
    ∧ (∀ cats, tagsOf cats = none ↔ cats.filterMap tagOf = [])
    ∧ (∀ cats ts t, tagsOf cats = some ts → t ∈ ts →
        t = "cashmere" ∨ t = "wool" ∨ t = "cotton")
    ∧ tagOf "Cashmere Sweater" = some "cashmere"
    ∧ tagsOf ["Dresses"] = none := by
  refine ⟨fun embed raw p h => (pp_fields embed raw p h).2.2.2.2.2.1, ?_, ?_, rfl, rfl⟩
  · intro cats
    unfold tagsOf
    by_cases hc : cats.filterMap tagOf = []
    · simp [hc]
    · simp [hc]
  · intro cats ts t hts hmem
    unfold tagsOf at hts
    by_cases hc : cats.filterMap tagOf = []
    · rw [if_pos hc] at hts; exact Option.noConfusion hts
    · rw [if_neg hc] at hts
      cases hts
      obtain ⟨c, _, hct⟩ := List.mem_filterMap.mp hmem
      exact tagOf_cases c t hct

/-- Witness for the amended C6 at the double-cashmere listing. -/
theorem tag_derivation_witness :
    ((process_product embedNone cashmereRaw).getD sampleProduct).tags
      = tagsOf cashmereRaw.categories :=
  tag_derivation.1 embedNone cashmereRaw
    ((process_product embedNone cashmereRaw).getD sampleProduct) rfl

/-- C7: a positive limit truncates the sink's input to exactly the first
`limit` normalized records in their original order, and when at least
`limit` records normalized, exactly `limit` reach the sink. -/
theorem limit_truncation (embed : String → Option (List ℚ))
    (items : List RawListing) (n : Int) (hn : 0 < n) :
    productsForSink embed items (some n)
      = (process_json_response embed items).take n.toNat
    ∧ (n.toNat ≤ (process_json_response embed items).length →
        (productsForSink embed items (some n)).length = n.toNat) := by
  have hne : n ≠ 0 := by omega
  have htr : productsForSink embed items (some n)
      = (process_json_response embed items).take n.toNat := by
    simp only [productsForSink, truncateByLimit, pySliceTo]
    rw [if_neg hne, if_pos (le_of_lt hn)]
  refine ⟨htr, fun hle => ?_⟩
  rw [htr, List.length_take]
  omega

/-- Witness for C7: a source of 20 valid records with limit 5 hands exactly
5 records to the sink. -/
theorem limit_truncation_witness :
    (productsForSink embedNone (List.replicate 20 sampleRaw) (some 5)).length
      = Int.toNat 5 :=
  (limit_truncation embedNone (List.replicate 20 sampleRaw) 5 (by decide)).2 (by decide)

/-- C9: any category label containing `men` as a case-insensitive substring
— including `Women's Dresses` — makes the normalized gender MAN. -/
theorem gender_substring_men :
    (∀ embed raw p, process_product embed raw = some p →
        (∃ cat ∈ raw.categories, strContains "men" (pyLower cat) = true) →
        p.gender = "MAN")
    ∧ strContains "men" (pyLower womensDresses) = true
    ∧ (process_product embedNone womensRaw).map ProductData.gender = some "MAN" := by
  refine ⟨?_, rfl, rfl⟩
  rintro embed raw p h ⟨cat, hmem, hcon⟩
  rw [(pp_fields embed raw p h).2.2.1]
  unfold genderOf
  rw [if_pos (List.any_eq_true.mpr ⟨cat, hmem, hcon⟩)]

/-- Witness for C9 at the `Women's Dresses` listing. -/
theorem gender_substring_men_witness :
    ((process_product embedNone womensRaw).getD sampleProduct).gender = "MAN" :=
  gender_substring_men.1 embedNone womensRaw
    ((process_product embedNone womensRaw).getD sampleProduct) rfl
    ⟨womensDresses, by decide, by decide⟩

/-- C10: a limit of `0`, like no limit at all, performs no truncation — the
full normalized list reaches the sink, not an empty batch. -/
theorem limit_zero_or_none (embed : String → Option (List ℚ))
    (items : List RawListing) :
    productsForSink embed items (some 0) = process_json_response embed items
    ∧ productsForSink embed items none = process_json_response embed items :=
  ⟨rfl, rfl⟩
